import Mathlib

/-!
Verification of the multi-datacenter session subsystem of a cf CLI fork
(`cf/commands/endpoint.go`, commands `Endpoint` and `Login`).

The Go code is shallowly embedded: every interactive or remote collaborator
(terminal, authenticator, org/space repositories, configuration store) is
passed in as explicit data (answer oracles `Nat → String`, outcome oracles
`Nat → Option String`, `Except`-valued repository results), and each function
returns the list of terminal interactions it performed (`UIEvent`) together
with its result.  Go maps are embedded as association lists with first-match
lookup and in-place upsert; Go's nondeterministic map iteration order is
represented by the order of the association list.  Terminal colour wrapping
(`terminal.EntityNameColor`) and i18n lookup (`T`) are identity on the
message text and are dropped.
-/

namespace CF

/-- One interaction with the terminal or, for the login flows, with the
remote authenticator.  `ask`/`askForPassword` record the label shown and the
answer the user gave; `ok` is `ui.Ok()`; `showConfiguration` and
`notifyUpdateIfNeeded` record the corresponding `ui` calls of
`Endpoint.Execute`. -/
inductive UIEvent where
  | say (msg : String)
  | ask (label answer : String)
  | askForPassword (label answer : String)
  | ok
  | showConfiguration
  | notifyUpdateIfNeeded
deriving DecidableEq, Repr

/-- Model of `models.OrganizationFields`, restricted to the fields this code reads
(GUID and Name); `models.Organization` embeds it, which we flatten. -/
structure Organization where
  guid : String
  name : String
deriving DecidableEq, Repr

/-- Model of `models.SpaceFields` / `models.Space`, flattened like `Organization`. -/
structure Space where
  guid : String
  name : String
deriving DecidableEq, Repr

/-- Model of `coreconfig.CFInstanceData`: one entry of the persisted multi-endpoint
session history, exactly the fields `Login.updateMultiInstances` writes. -/
structure CFInstanceData where
  accessToken : String
  apiVersion : String
  authorizationEndpoint : String
  dopplerEndPoint : String
  logCacheEndPoint : String
  organizationFields : Organization
  spaceFields : Space
  refreshToken : String
  uaaEndpoint : String
deriving DecidableEq, Repr

/-- The slice of the configuration store (`coreconfig.ReadWriter`) that
`Login.updateMultiInstances` reads: one getter per field it copies, plus
`APIEndpoint`, which its filter compares against. -/
structure Config where
  accessToken : String
  apiVersion : String
  authenticationEndpoint : String
  dopplerEndpoint : String
  logCacheEndpoint : String
  organizationFields : Organization
  spaceFields : Space
  refreshToken : String
  uaaEndpoint : String
  apiEndpoint : String
deriving DecidableEq, Repr

/-- The head entry `Login.updateMultiInstances` builds from the current
configuration (endpoint.go line 521): note that its
`authorizationEndpoint` field is filled from `config.AuthenticationEndpoint()`. -/
def newSessionOf (cfg : Config) : CFInstanceData :=
  { accessToken := cfg.accessToken
    apiVersion := cfg.apiVersion
    authorizationEndpoint := cfg.authenticationEndpoint
    dopplerEndPoint := cfg.dopplerEndpoint
    logCacheEndPoint := cfg.logCacheEndpoint
    organizationFields := cfg.organizationFields
    spaceFields := cfg.spaceFields
    refreshToken := cfg.refreshToken
    uaaEndpoint := cfg.uaaEndpoint }

/-- Embedding of `Login.updateMultiInstances` (endpoint.go lines 518-538): prepend the
fresh session, then keep exactly the old entries whose
`AuthorizationEndpoint` differs from `config.APIEndpoint()` (the Go loop
appends them in order, i.e. a filter). -/
def updateMultiInstances (cfg : Config) (instances : List CFInstanceData) :
    List CFInstanceData :=
  newSessionOf cfg :: instances.filter fun i => i.authorizationEndpoint != cfg.apiEndpoint

/-- Model of `strings.Contains(s, substr)` on the underlying character lists:
some suffix of `s` starts with `substr`. -/
def stringsContainsAux (sub : List Char) : List Char → Bool
  | [] => sub.isEmpty
  | c :: rest => sub.isPrefixOf (c :: rest) || stringsContainsAux sub rest

/-- Model of `strings.Contains` from the Go standard library. -/
def stringsContains (s substr : String) : Bool :=
  stringsContainsAux substr.data s.data

/-- Embedding of `Endpoint.Execute` (endpoint.go lines 70-89).  `showConfigurationResult`
is the error `ui.ShowConfiguration` would return (`none` = success);
`isLoggedIn` is `config.IsLoggedIn()`. -/
def endpointExecute (pattern : String) (instances : List CFInstanceData)
    (showConfigurationResult : Option String) (isLoggedIn : Bool) :
    List UIEvent × Except String Unit :=
  match instances.find? (fun i => stringsContains i.authorizationEndpoint pattern) with
  | some i =>
      ([UIEvent.say ("Found existed endpoint " ++ i.authorizationEndpoint)], Except.ok ())
  | none =>
      match showConfigurationResult with
      | some e => ([UIEvent.showConfiguration], Except.error e)
      | none =>
          if !isLoggedIn then
            ([UIEvent.showConfiguration, UIEvent.notifyUpdateIfNeeded], Except.error "")
          else
            ([UIEvent.showConfiguration, UIEvent.notifyUpdateIfNeeded], Except.ok ())

/-- Embedding of `Login.decideEndpoint` (endpoint.go lines 244-259).  `cEndpoint` and
`cSkipSSL` are the explicit `-a` / `--skip-ssl-validation` flag values,
`cfgAPIEndpoint` / `cfgSSLDisabled` the persisted configuration, and
`askAnswer` what `ui.Ask("API endpoint")` would return.  The `ui.Say` of the
chosen endpoint is not modelled (no claim concerns it). -/
def decideEndpoint (cEndpoint : String) (cSkipSSL : Bool)
    (cfgAPIEndpoint : String) (cfgSSLDisabled : Bool) (askAnswer : String) :
    String × Bool :=
  let p : String × Bool :=
    if cEndpoint = "" then (cfgAPIEndpoint, cfgSSLDisabled || cSkipSSL)
    else (cEndpoint, cSkipSSL)
  if p.1 = "" then (askAnswer, p.2) else p

/-- A configuration whose authentication endpoint and API endpoint differ, as
they do on a standard Cloud Foundry deployment (login.* vs api.*). -/
def cfgSplitEndpoints : Config :=
  { accessToken := "tok"
    apiVersion := "2.128.0"
    authenticationEndpoint := "https://login.example.com"
    dopplerEndpoint := ""
    logCacheEndpoint := ""
    organizationFields := ⟨"", ""⟩
    spaceFields := ⟨"", ""⟩
    refreshToken := ""
    uaaEndpoint := ""
    apiEndpoint := "https://api.example.com" }

/-- A stored history entry whose identity key (`authorizationEndpoint`)
happens to equal `cfgSplitEndpoints`'s API endpoint. -/
def entryKeyedByApiEndpoint : CFInstanceData :=
  { accessToken := "old"
    apiVersion := "2.128.0"
    authorizationEndpoint := "https://api.example.com"
    dopplerEndPoint := ""
    logCacheEndPoint := ""
    organizationFields := ⟨"", ""⟩
    spaceFields := ⟨"", ""⟩
    refreshToken := ""
    uaaEndpoint := "" }

/-- Constant `maxLoginTries` (endpoint.go line 112). -/
def maxLoginTries : Nat := 3

/-- Constant `maxChoices` (endpoint.go line 113). -/
def maxChoices : Nat := 50

/-- Model of `coreconfig.AuthPromptType`: the two prompt kinds the UAA server
declares (`TEXT` and `PASSWORD`). -/
inductive AuthPromptType where
  | text
  | password
deriving DecidableEq, Repr

/-- Model of `coreconfig.AuthPrompt`: one server-declared credential field. -/
structure AuthPrompt where
  type : AuthPromptType
  displayName : String
deriving DecidableEq, Repr

/-- Assignment `m[k] = v` on a Go map embedded as an association list:
replace the first binding of `k` in place, or append a new one. -/
def upsert (k v : String) : List (String × String) → List (String × String)
  | [] => [(k, v)]
  | (k', v') :: rest =>
      if k' = k then (k, v) :: rest else (k', v') :: upsert k v rest

/-- What one iteration of the `maxLoginTries` retry loop did: the terminal
interactions of that attempt in order, the credentials map passed to
`authenticator.Authenticate`, and that call's outcome (`none` = success). -/
structure AttemptRecord where
  events : List UIEvent
  credentials : List (String × String)
  result : Option String
deriving DecidableEq, Repr

/-- The run of one authentication flow (`Login.authenticate` or
`Login.authenticateSSO`): how many times
`GetLoginPromptsAndSaveUAAServerURL` was called, the terminal interactions
before the retry loop, one `AttemptRecord` per `Authenticate` call, and the
flow's return value. -/
structure AuthRun where
  fetchPromptsCalls : Nat
  preEvents : List UIEvent
  attempts : List AttemptRecord
  result : Except String Unit
deriving Repr

/-- The prompt-catalog pass of endpoint.go lines 320-326: the `"username"`
prompt is answered by the `-u` flag when it is a text prompt and the flag is
non-empty, else asked interactively.  Returns the events, the credentials
built so far and the next index of the interactive-answer oracle. -/
def usernamePhase (prompts : List (String × AuthPrompt)) (usernameFlagValue : String)
    (answers : Nat → String) (idx : Nat) :
    List UIEvent × List (String × String) × Nat :=
  match prompts.lookup "username" with
  | some value =>
      if value.type = AuthPromptType.text ∧ usernameFlagValue ≠ "" then
        ([], upsert "username" usernameFlagValue [], idx)
      else
        ([UIEvent.ask value.displayName (answers idx)],
          upsert "username" (answers idx) [], idx + 1)
  | none => ([], [], idx)

/-- State accumulated by the `for key, prompt := range prompts` pass. -/
structure ScanState where
  events : List UIEvent
  credentials : List (String × String)
  passwordKeys : List String
  nextAsk : Nat
deriving Repr

/-- The catalog pass of endpoint.go lines 328-340: password-kind prompts
other than `"passcode"`/`"password"` are collected into `passwordKeys`
(in catalog order), `"username"` is skipped, and every other prompt is asked
interactively once, before the retry loop. -/
def scanPrompts (answers : Nat → String) :
    List (String × AuthPrompt) → Nat → List (String × String) → ScanState
  | [], idx, creds => ⟨[], creds, [], idx⟩
  | (key, prompt) :: rest, idx, creds =>
      if prompt.type = AuthPromptType.password then
        if key = "passcode" ∨ key = "password" then
          scanPrompts answers rest idx creds
        else
          let r := scanPrompts answers rest idx creds
          ⟨r.events, r.credentials, key :: r.passwordKeys, r.nextAsk⟩
      else if key = "username" then
        scanPrompts answers rest idx creds
      else
        let r := scanPrompts answers rest (idx + 1) (upsert key (answers idx) creds)
        ⟨UIEvent.ask prompt.displayName (answers idx) :: r.events,
          r.credentials, r.passwordKeys, r.nextAsk⟩

/-- Just the `passwordKeys` of `scanPrompts`, as a function of the catalog
alone (the retry-scoped secret prompts: password-kind, not `"passcode"`,
not `"password"`). -/
def passwordKeysOf : List (String × AuthPrompt) → List String
  | [] => []
  | (key, prompt) :: rest =>
      if prompt.type = AuthPromptType.password then
        if key = "passcode" ∨ key = "password" then passwordKeysOf rest
        else key :: passwordKeysOf rest
      else passwordKeysOf rest

/-- The per-attempt loop of endpoint.go lines 354-356: every retry-scoped
secret prompt is asked again (as a secret) on every attempt, in
`passwordKeys` order.  Returns (events, credentials, next oracle index). -/
def askPasswordKeys (prompts : List (String × AuthPrompt)) (answers : Nat → String) :
    List String → Nat → List (String × String) →
    List UIEvent × List (String × String) × Nat
  | [], idx, creds => ([], creds, idx)
  | key :: rest, idx, creds =>
      let label := ((prompts.lookup key).map AuthPrompt.displayName).getD ""
      let r := askPasswordKeys prompts answers rest (idx + 1) (upsert key (answers idx) creds)
      (UIEvent.askForPassword label (answers idx) :: r.1, r.2.1, r.2.2)

/-- The events `askPasswordKeys` emits (they do not depend on the
credentials it threads through): one secret prompt per retry-scoped key, in
order, labelled by that key's display name. -/
def retryAskEvents (prompts : List (String × AuthPrompt)) (answers : Nat → String) :
    List String → Nat → List UIEvent
  | [], _ => []
  | key :: rest, idx =>
      UIEvent.askForPassword (((prompts.lookup key).map AuthPrompt.displayName).getD "")
          (answers idx) ::
        retryAskEvents prompts answers rest (idx + 1)

/-- Result of the secret-collection phase of one attempt. -/
structure AttemptAsks where
  events : List UIEvent
  credentials : List (String × String)
  nextAsk : Nat
  passwordFlagValue : String
deriving Repr

/-- Endpoint.go lines 344-356, the secret prompts of ONE attempt: if a
`"password"` prompt exists it is filled first — from the `-p` flag value if
that is still non-empty (which also clears it, so the override is used once),
else by an interactive secret prompt — and only then are the other
retry-scoped secrets asked. -/
def askRetrySecrets (prompts : List (String × AuthPrompt)) (passwordKeys : List String)
    (answers : Nat → String) (idx : Nat) (creds : List (String × String))
    (passwordFlagValue : String) : AttemptAsks :=
  let s1 : AttemptAsks :=
    match prompts.lookup "password" with
    | some passPrompt =>
        if passwordFlagValue ≠ "" then
          ⟨[], upsert "password" passwordFlagValue creds, idx, ""⟩
        else
          ⟨[UIEvent.askForPassword passPrompt.displayName (answers idx)],
            upsert "password" (answers idx) creds, idx + 1, passwordFlagValue⟩
    | none => ⟨[], creds, idx, passwordFlagValue⟩
  let r := askPasswordKeys prompts answers passwordKeys s1.nextAsk s1.credentials
  ⟨s1.events ++ r.1, r.2.1, r.2.2, s1.passwordFlagValue⟩

/-- The retry loop of `Login.authenticate` (endpoint.go lines 342-373),
by remaining tries: each iteration collects the attempt's secrets, says
"Authenticating...", calls `Authenticate` (outcome `auth callIdx`), and on
success says OK and breaks; on failure it echoes the server error and
continues with the same credentials map and the cleared password override. -/
def attemptLoop (prompts : List (String × AuthPrompt)) (passwordKeys : List String)
    (answers : Nat → String) (auth : Nat → Option String) :
    Nat → Nat → Nat → List (String × String) → String → List AttemptRecord
  | 0, _, _, _, _ => []
  | remaining + 1, idx, callIdx, creds, passwordFlagValue =>
      let s := askRetrySecrets prompts passwordKeys answers idx creds passwordFlagValue
      match auth callIdx with
      | none =>
          [⟨s.events ++ [UIEvent.say "Authenticating...", UIEvent.ok, UIEvent.say ""],
            s.credentials, none⟩]
      | some e =>
          ⟨s.events ++ [UIEvent.say "Authenticating...", UIEvent.say e],
            s.credentials, some e⟩ ::
            attemptLoop prompts passwordKeys answers auth remaining s.nextAsk
              (callIdx + 1) s.credentials s.passwordFlagValue

/-- The value of Go's `err` variable after the retry loop: the outcome of
the last attempt made (`none` when the loop body never ran). -/
def lastResult : List AttemptRecord → Option String
  | [] => none
  | [r] => r.result
  | _ :: r :: rest => lastResult (r :: rest)

/-- Embedding of `Login.authenticate` (endpoint.go lines 305-379).  `uaaGrantType` is
`config.UAAGrantType()`; `promptsResult` the outcome of
`GetLoginPromptsAndSaveUAAServerURL`; `answers` the oracle of interactive
answers (text and secret prompts share one terminal stream); `auth i` the
outcome of the (i+1)-th `Authenticate` call. -/
def loginAuthenticate (uaaGrantType usernameFlagValue passwordFlagValue : String)
    (promptsResult : Except String (List (String × AuthPrompt)))
    (answers : Nat → String) (auth : Nat → Option String) : AuthRun :=
  if uaaGrantType = "client_credentials" then
    ⟨0, [], [], Except.error
      "Service account currently logged in. Use \x27cf logout\x27 to log out service account and try again."⟩
  else
    match promptsResult with
    | Except.error e => ⟨1, [], [], Except.error e⟩
    | Except.ok prompts =>
        let u := usernamePhase prompts usernameFlagValue answers 0
        let s := scanPrompts answers prompts u.2.2 u.2.1
        let records := attemptLoop prompts s.passwordKeys answers auth
          maxLoginTries s.nextAsk 0 s.credentials passwordFlagValue
        ⟨1, u.1 ++ s.events, records,
          match lastResult records with
          | none => Except.ok ()
          | some _ => Except.error "Unable to authenticate."⟩

/-- The passcode collection of one SSO attempt (endpoint.go lines 281-285):
on attempt `i = 0` an explicitly supplied `--sso-passcode` value is used,
every other attempt asks for the passcode as a secret. -/
def ssoStep (passcode : AuthPrompt) (ssoPasscodeSet : Bool) (ssoPasscodeValue : String)
    (answers : Nat → String) (i idx : Nat) (creds : List (String × String)) :
    List UIEvent × List (String × String) × Nat :=
  if ssoPasscodeSet ∧ i = 0 then
    ([], upsert "passcode" ssoPasscodeValue creds, idx)
  else
    ([UIEvent.askForPassword passcode.displayName (answers idx)],
      upsert "passcode" (answers idx) creds, idx + 1)

/-- The retry loop of `Login.authenticateSSO` (endpoint.go lines 280-297):
same progress/outcome events and break semantics as the password loop; the
loop counter `i` is also the `Authenticate` call index. -/
def ssoLoop (passcode : AuthPrompt) (ssoPasscodeSet : Bool) (ssoPasscodeValue : String)
    (answers : Nat → String) (auth : Nat → Option String) :
    Nat → Nat → Nat → List (String × String) → List AttemptRecord
  | 0, _, _, _ => []
  | remaining + 1, i, idx, creds =>
      let step := ssoStep passcode ssoPasscodeSet ssoPasscodeValue answers i idx creds
      match auth i with
      | none =>
          [⟨step.1 ++ [UIEvent.say "Authenticating...", UIEvent.ok, UIEvent.say ""],
            step.2.1, none⟩]
      | some e =>
          ⟨step.1 ++ [UIEvent.say "Authenticating...", UIEvent.say e],
            step.2.1, some e⟩ ::
            ssoLoop passcode ssoPasscodeSet ssoPasscodeValue answers auth
              remaining (i + 1) step.2.2 step.2.1

/-- Embedding of `Login.authenticateSSO` (endpoint.go lines 261-303): when the catalog's
`"passcode"` prompt is absent (Go map access yields the zero value, whose
`DisplayName` is empty) a password-kind prompt with a help-URL label derived
from `config.AuthenticationEndpoint()` is synthesized. -/
def loginAuthenticateSSO (ssoPasscodeSet : Bool)
    (ssoPasscodeValue authenticationEndpoint : String)
    (promptsResult : Except String (List (String × AuthPrompt)))
    (answers : Nat → String) (auth : Nat → Option String) : AuthRun :=
  match promptsResult with
  | Except.error e => ⟨1, [], [], Except.error e⟩
  | Except.ok prompts =>
      let passcode0 := (prompts.lookup "passcode").getD ⟨AuthPromptType.text, ""⟩
      let passcode :=
        if passcode0.displayName = "" then
          AuthPrompt.mk AuthPromptType.password
            ("Temporary Authentication Code ( Get one at " ++
              authenticationEndpoint ++ "/passcode )")
        else passcode0
      let records := ssoLoop passcode ssoPasscodeSet ssoPasscodeValue answers auth
        maxLoginTries 0 0 []
      ⟨1, [], records,
        match lastResult records with
        | none => Except.ok ()
        | some _ => Except.error "Unable to authenticate."⟩

/-- The authentication dispatch of `Login.Execute` (endpoint.go lines
212-225), reached after the endpoint/API setup: conflicting `--sso` and
`--sso-passcode` flags are rejected there, before either flow (and hence
before `GetLoginPromptsAndSaveUAAServerURL` or `Authenticate`) runs. -/
def loginAuthSwitch (ssoFlag ssoPasscodeSet : Bool)
    (ssoPasscodeValue authenticationEndpoint : String)
    (uaaGrantType usernameFlagValue passwordFlagValue : String)
    (promptsResult : Except String (List (String × AuthPrompt)))
    (answers : Nat → String) (auth : Nat → Option String) : AuthRun :=
  if ssoFlag && ssoPasscodeSet then
    ⟨0, [], [],
      Except.error "Incorrect usage: --sso-passcode flag cannot be used with --sso"⟩
  else if ssoFlag || ssoPasscodeSet then
    loginAuthenticateSSO ssoPasscodeSet ssoPasscodeValue authenticationEndpoint
      promptsResult answers auth
  else
    loginAuthenticate uaaGrantType usernameFlagValue passwordFlagValue
      promptsResult answers auth

/-- The digit loop of `strconv.ParseUint` (base 10): accumulate decimal
digits, failing on any non-digit character. -/
def parseDigits : List Char → Nat → Option Nat
  | [], acc => some acc
  | c :: rest, acc =>
      if c.isDigit then parseDigits rest (acc * 10 + (c.toNat - '0'.toNat))
      else none

/-- Model of `strconv.Atoi` = `ParseInt(s, 10, 0)`: optional sign, then at least one
decimal digit; errors (`none`) on an empty string, a non-digit, or a value
outside the platform `int` range (64-bit here, as on the platforms this CLI
ships for — both the overflowing and the syntactically bad case return a
non-nil error, which is all the caller tests). -/
def goAtoi (s : String) : Option Int :=
  match s.data with
  | [] => none
  | c :: rest =>
      let p : Bool × List Char :=
        if c = '-' then (true, rest)
        else if c = '+' then (false, rest)
        else (false, c :: rest)
      match p.2 with
      | [] => none
      | d :: ds =>
          match parseDigits (d :: ds) 0 with
          | none => none
          | some n =>
              let v : Int := if p.1 then -(n : Int) else (n : Int)
              if v < -(2 ^ 63) ∨ 2 ^ 63 - 1 < v then none else some v

/-- The list header plus either the 1-based enumerated menu (fewer than
`maxChoices` names) or the type-the-name instruction, as
`Login.promptForName` displays it on each loop iteration
(endpoint.go lines 490-500). -/
def enumeratedSaysFrom (i : Nat) : List String → List UIEvent
  | [] => []
  | n :: rest => UIEvent.say (toString (i + 1) ++ ". " ++ n) :: enumeratedSaysFrom (i + 1) rest

/-- One display block of the selection menu. -/
def menuEvents (names : List String) (listPrompt : String) : List UIEvent :=
  UIEvent.say listPrompt ::
    (if names.length < maxChoices then enumeratedSaysFrom 0 names
     else [UIEvent.say "There are too many options to display, please type in the name."])

/-- Embedding of `Login.promptForName` (endpoint.go lines 484-516), with the loop bounded
by explicit fuel (the Go loop runs until a terminating answer; `none` means
the fuel ran out, i.e. the Go code would still be looping).  `idx` indexes
the interactive-answer oracle.  An empty answer returns `""` (skip); an
answer `strconv.Atoi` cannot parse is returned verbatim as a name; a parsed
index inside `[1, len(names)]` selects that name; any other parsed index
repeats the loop. -/
def promptForName (names : List String) (listPrompt itemPrompt : String)
    (answers : Nat → String) : Nat → Nat → List UIEvent × Option String
  | 0, _ => ([], none)
  | fuel + 1, idx =>
      let asked := menuEvents names listPrompt ++ [UIEvent.ask itemPrompt (answers idx)]
      if answers idx = "" then (asked, some "")
      else
        match goAtoi (answers idx) with
        | none => (asked, some (answers idx))
        | some k =>
            if 1 ≤ k ∧ k ≤ (names.length : Int) then
              (asked, some (names.getD (k - 1).toNat ""))
            else
              let r := promptForName names listPrompt itemPrompt answers fuel (idx + 1)
              (asked ++ r.1, r.2)

/-- What one org/space targeting stage produced: its terminal events,
whether a target was set, which one, and its error if any. -/
structure TargetOutcome (α : Type) where
  events : List UIEvent
  isSet : Bool
  targeted : Option α
  err : Option String
deriving DecidableEq, Repr

/-- The shared tail of `Login.setOrganization` (endpoint.go lines 406-413):
`orgRepo.FindByName` then `targetOrganization` (which stores the org fields
and says the confirmation). -/
def findAndTargetOrg (findByName : String → Except String Organization)
    (orgName : String) : TargetOutcome Organization :=
  match findByName orgName with
  | Except.error e =>
      ⟨[], false, none, some ("Error finding org " ++ orgName ++ "\n" ++ e)⟩
  | Except.ok org =>
      ⟨[UIEvent.say ("Targeted org " ++ org.name ++ "\n")], true, some org, none⟩

/-- Embedding of `Login.setOrganization` (endpoint.go lines 381-414).  `orgFlag` is the
`-o` override; `orgsRes` the outcome of `orgRepo.ListOrgs(maxChoices)`.
When `promptForName`'s fuel runs out (the Go loop would not have returned)
the stage is recorded as not set, with the events emitted so far. -/
def setOrganization (orgFlag : String) (orgsRes : Except String (List Organization))
    (findByName : String → Except String Organization)
    (answers : Nat → String) (fuel : Nat) : TargetOutcome Organization :=
  if orgFlag ≠ "" then findAndTargetOrg findByName orgFlag
  else
    match orgsRes with
    | Except.error e => ⟨[], false, none, some ("Error finding available orgs\n" ++ e)⟩
    | Except.ok orgs =>
        if orgs.length = 0 then ⟨[], false, none, none⟩
        else if orgs.length = 1 then
          let org := orgs.headD ⟨"", ""⟩
          ⟨[UIEvent.say ("Targeted org " ++ org.name ++ "\n")], true, some org, none⟩
        else
          let r := promptForName (orgs.map Organization.name)
            "Select an org (or press enter to skip):" "Org" answers fuel 0
          match r.2 with
          | none => ⟨r.1, false, none, none⟩
          | some orgName =>
              if orgName = "" then ⟨r.1 ++ [UIEvent.say ""], false, none, none⟩
              else
                let t := findAndTargetOrg findByName orgName
                ⟨r.1 ++ t.events, t.isSet, t.targeted, t.err⟩

/-- The shared tail of `Login.setSpace` (endpoint.go lines 459-466). -/
def findAndTargetSpace (findByName : String → Except String Space)
    (spaceName : String) : TargetOutcome Space :=
  match findByName spaceName with
  | Except.error e =>
      ⟨[], false, none, some ("Error finding space " ++ spaceName ++ "\n" ++ e)⟩
  | Except.ok space =>
      ⟨[UIEvent.say ("Targeted space " ++ space.name ++ "\n")], true, some space, none⟩

/-- Embedding of `Login.setSpace` (endpoint.go lines 431-467).  The `ListSpaces` callback
stops accumulating once `maxChoices` spaces are collected, i.e. the
available list is the repository's stream truncated to `maxChoices`.
`isSet` mirrors whether a space was targeted (the Go function only returns
an error; nothing reads an is-set flag for spaces). -/
def setSpace (spaceFlag : String) (spacesRes : Except String (List Space))
    (findByName : String → Except String Space)
    (answers : Nat → String) (fuel : Nat) : TargetOutcome Space :=
  if spaceFlag ≠ "" then findAndTargetSpace findByName spaceFlag
  else
    match spacesRes with
    | Except.error e => ⟨[], false, none, some ("Error finding available spaces\n" ++ e)⟩
    | Except.ok stream =>
        let availableSpaces := stream.take maxChoices
        if availableSpaces.length = 0 then ⟨[], false, none, none⟩
        else if availableSpaces.length = 1 then
          let space := availableSpaces.headD ⟨"", ""⟩
          ⟨[UIEvent.say ("Targeted space " ++ space.name ++ "\n")], true, some space, none⟩
        else
          let r := promptForName (availableSpaces.map Space.name)
            "Select a space (or press enter to skip):" "Space" answers fuel 0
          match r.2 with
          | none => ⟨r.1, false, none, none⟩
          | some spaceName =>
              if spaceName = "" then ⟨r.1 ++ [UIEvent.say ""], false, none, none⟩
              else
                let t := findAndTargetSpace findByName spaceName
                ⟨r.1 ++ t.events, t.isSet, t.targeted, t.err⟩

/-- The targeting phase of `Login.Execute` (endpoint.go lines 227-237): run
the organization stage; abort on its error; run the space stage only when an
organization was set.  Returns the phase's events and its error. -/
def loginTargetPhase (orgFlag spaceFlag : String)
    (orgsRes : Except String (List Organization))
    (findOrg : String → Except String Organization)
    (spacesRes : Except String (List Space))
    (findSpace : String → Except String Space)
    (answersOrg answersSpace : Nat → String) (fuelOrg fuelSpace : Nat) :
    List UIEvent × Option String :=
  let o := setOrganization orgFlag orgsRes findOrg answersOrg fuelOrg
  match o.err with
  | some e => (o.events, some e)
  | none =>
      if o.isSet then
        let s := setSpace spaceFlag spacesRes findSpace answersSpace fuelSpace
        (o.events ++ s.events, s.err)
      else (o.events, none)

/-- A small concrete prompt catalog (username, password and one MFA-style
retry-scoped secret), used to evaluate the theorems below on closed inputs. -/
def promptsEx : List (String × AuthPrompt) :=
  [("username", ⟨AuthPromptType.text, "Email"⟩),
   ("password", ⟨AuthPromptType.password, "Password"⟩),
   ("mfa", ⟨AuthPromptType.password, "MFA Code"⟩)]

/-- A concrete interactive-answer oracle. -/
def answersEx : Nat → String := fun i => "ans" ++ toString i

/-- A concrete authenticator oracle: the second `Authenticate` call
succeeds, every other one fails. -/
def authEx : Nat → Option String := fun i => if i = 1 then none else some "bad credentials"

/-- A concrete authenticator oracle that always fails. -/
def authFailEx : Nat → Option String := fun _ => some "bad credentials"

/-- A two-organization listing. -/
def orgs2Ex : List Organization := [⟨"g1", "alpha"⟩, ⟨"g2", "beta"⟩]

/-- A fifty-organization listing (the `maxChoices` page size). -/
def orgs50Ex : List Organization :=
  (List.range 50).map fun i => ⟨toString i, "org" ++ toString i⟩

/-- A concrete directory lookup that fails on every name. -/
def findOrgFailEx : String → Except String Organization := fun _ => Except.error "not found"

/-- A concrete space-directory lookup that fails on every name. -/
def findSpaceFailEx : String → Except String Space := fun _ => Except.error "not found"

/-- C1 (code_bug): two consecutive merges against the same endpoint, from an
empty history, leave TWO entries, not one: the filter in
`updateMultiInstances` compares each entry's `AuthorizationEndpoint`
(written from `config.AuthenticationEndpoint()`) against
`config.APIEndpoint()`, so the entry written by the first merge is never
recognised as superseded when the two endpoints differ. -/
theorem updateMultiInstances_repeated_login_duplicates :
    (updateMultiInstances cfgSplitEndpoints
      (updateMultiInstances cfgSplitEndpoints [])).length = 2 := by
  decide

/-- C2 (code_bug): merging over a history whose single entry has an identity
key (`authorizationEndpoint = "https://api.example.com"`) DIFFERENT from the
new session's identity key (`"https://login.example.com"`) drops that entry
instead of preserving it: the filter tests against `config.APIEndpoint()`,
not against the new session's identity key. -/
theorem updateMultiInstances_drops_unrelated_entry :
    updateMultiInstances cfgSplitEndpoints [entryKeyedByApiEndpoint] =
      [newSessionOf cfgSplitEndpoints] ∧
    entryKeyedByApiEndpoint.authorizationEndpoint ≠
      (newSessionOf cfgSplitEndpoints).authorizationEndpoint := by
  constructor
  · decide
  · decide

/-- C3 counterexample: with an explicit endpoint given, an explicit skip-ssl
flag of `false` and a persisted skip-ssl setting of `true`, the resolver
returns `false`, not `(persisted-skip-ssl) OR (explicit-skip-ssl) = true`. -/
theorem decideEndpoint_skip_ssl_or_counterexample :
    ¬ ((decideEndpoint "https://api.example.com" false
          "https://persisted.example.com" true "x").2 = (true || false)) := by
  decide

/-- C3 (amended): the effective skip-ssl boolean is the OR of the persisted
and explicit flags only when no explicit endpoint was supplied; with an
explicit endpoint the persisted skip-ssl setting is ignored and the explicit
flag alone is returned. -/
theorem decideEndpoint_skip_ssl_characterization :
    ∀ (cEndpoint : String) (cSkipSSL : Bool)
      (cfgAPIEndpoint : String) (cfgSSLDisabled : Bool) (askAnswer : String),
      (decideEndpoint cEndpoint cSkipSSL cfgAPIEndpoint cfgSSLDisabled askAnswer).2 =
        if cEndpoint = "" then cfgSSLDisabled || cSkipSSL else cSkipSSL := by
  intro cEndpoint cSkipSSL cfgAPIEndpoint cfgSSLDisabled askAnswer
  by_cases h : cEndpoint = ""
  · by_cases h2 : cfgAPIEndpoint = "" <;> simp [decideEndpoint, h, h2]
  · simp [decideEndpoint, h]

/-- C6: with both the `--sso` toggle and an explicit `--sso-passcode`
override, the dispatch returns the conflicting-usage error as a constant,
for every prompts-fetch outcome and authenticator oracle: zero
`GetLoginPromptsAndSaveUAAServerURL` calls, zero `Authenticate` calls
(no attempt records).  ("Network call" here means the authenticator's calls,
as the claim itself spells out; the endpoint-setup step of `Login.Execute`
precedes this dispatch.) -/
theorem loginAuthSwitch_conflict_rejected :
    ∀ (ssoPasscodeValue authenticationEndpoint : String)
      (uaaGrantType usernameFlagValue passwordFlagValue : String)
      (promptsResult : Except String (List (String × AuthPrompt)))
      (answers : Nat → String) (auth : Nat → Option String),
      loginAuthSwitch true true ssoPasscodeValue authenticationEndpoint
          uaaGrantType usernameFlagValue passwordFlagValue promptsResult answers auth =
        ⟨0, [], [],
          Except.error "Incorrect usage: --sso-passcode flag cannot be used with --sso"⟩ := by
  intro _ _ _ _ _ _ _ _
  rfl

/-- C10 counterexample: with no stored session matching and the
configuration not logged in, but `ui.ShowConfiguration` failing (here with
"boom"), `Endpoint.Execute` returns that error, not an error with an empty
message. -/
theorem endpointExecute_show_config_error_cex :
    ¬ ((endpointExecute "x" [] (some "boom") false).2 = Except.error "") := by
  simp [endpointExecute]

/-- C10 (amended): if some stored session's authorization endpoint contains
the pattern, `Endpoint.Execute` succeeds without displaying the
configuration (for every ShowConfiguration outcome); if no session matches,
then when displaying the configuration succeeds and the configuration is not
logged in the returned error has the empty message, and when displaying the
configuration fails that error is returned instead. -/
theorem endpointExecute_characterization :
    ∀ (pattern : String) (instances : List CFInstanceData) (logged : Bool) (e : String),
      ((∃ i ∈ instances, stringsContains i.authorizationEndpoint pattern = true) →
        ∀ showErr : Option String,
          (endpointExecute pattern instances showErr logged).2 = Except.ok () ∧
          UIEvent.showConfiguration ∉ (endpointExecute pattern instances showErr logged).1) ∧
      ((∀ i ∈ instances, stringsContains i.authorizationEndpoint pattern = false) →
        (endpointExecute pattern instances none false).2 = Except.error "" ∧
        (endpointExecute pattern instances (some e) logged).2 = Except.error e) := by
  intro pattern instances logged e
  constructor
  · rintro ⟨i, hi, hp⟩ showErr
    have hsome : (instances.find? fun j => stringsContains j.authorizationEndpoint pattern).isSome :=
      List.find?_isSome.mpr ⟨i, hi, hp⟩
    obtain ⟨j, hj⟩ := Option.isSome_iff_exists.mp hsome
    simp [endpointExecute, hj]
  · intro hall
    have hnone : (instances.find? fun j => stringsContains j.authorizationEndpoint pattern) = none :=
      List.find?_eq_none.mpr fun i hi => by simp [hall i hi]
    constructor
    · simp [endpointExecute, hnone]
    · simp [endpointExecute, hnone]

lemma lastResult_cons (a : AttemptRecord) (l : List AttemptRecord) (h : l ≠ []) :
    lastResult (a :: l) = lastResult l := by
  cases l with
  | nil => exact absurd rfl h
  | cons b r => rfl

lemma attemptLoop_succ_none (prompts : List (String × AuthPrompt)) (pks : List String)
    (answers : Nat → String) (auth : Nat → Option String)
    (n idx callIdx : Nat) (creds : List (String × String)) (pf : String)
    (he : auth callIdx = none) :
    attemptLoop prompts pks answers auth (n + 1) idx callIdx creds pf =
      [⟨(askRetrySecrets prompts pks answers idx creds pf).events ++
          [UIEvent.say "Authenticating...", UIEvent.ok, UIEvent.say ""],
        (askRetrySecrets prompts pks answers idx creds pf).credentials, none⟩] := by
  simp only [attemptLoop, he]

lemma attemptLoop_succ_some (prompts : List (String × AuthPrompt)) (pks : List String)
    (answers : Nat → String) (auth : Nat → Option String)
    (n idx callIdx : Nat) (creds : List (String × String)) (pf : String)
    (e : String) (he : auth callIdx = some e) :
    attemptLoop prompts pks answers auth (n + 1) idx callIdx creds pf =
      ⟨(askRetrySecrets prompts pks answers idx creds pf).events ++
          [UIEvent.say "Authenticating...", UIEvent.say e],
        (askRetrySecrets prompts pks answers idx creds pf).credentials, some e⟩ ::
      attemptLoop prompts pks answers auth n
        (askRetrySecrets prompts pks answers idx creds pf).nextAsk (callIdx + 1)
        (askRetrySecrets prompts pks answers idx creds pf).credentials
        (askRetrySecrets prompts pks answers idx creds pf).passwordFlagValue := by
  simp only [attemptLoop, he]

lemma ssoLoop_succ_none (passcode : AuthPrompt) (ssoSet : Bool) (ssoVal : String)
    (answers : Nat → String) (auth : Nat → Option String)
    (n i idx : Nat) (creds : List (String × String))
    (he : auth i = none) :
    ssoLoop passcode ssoSet ssoVal answers auth (n + 1) i idx creds =
      [⟨(ssoStep passcode ssoSet ssoVal answers i idx creds).1 ++
          [UIEvent.say "Authenticating...", UIEvent.ok, UIEvent.say ""],
        (ssoStep passcode ssoSet ssoVal answers i idx creds).2.1, none⟩] := by
  simp only [ssoLoop, he]

lemma ssoLoop_succ_some (passcode : AuthPrompt) (ssoSet : Bool) (ssoVal : String)
    (answers : Nat → String) (auth : Nat → Option String)
    (n i idx : Nat) (creds : List (String × String))
    (e : String) (he : auth i = some e) :
    ssoLoop passcode ssoSet ssoVal answers auth (n + 1) i idx creds =
      ⟨(ssoStep passcode ssoSet ssoVal answers i idx creds).1 ++
          [UIEvent.say "Authenticating...", UIEvent.say e],
        (ssoStep passcode ssoSet ssoVal answers i idx creds).2.1, some e⟩ ::
      ssoLoop passcode ssoSet ssoVal answers auth n (i + 1)
        (ssoStep passcode ssoSet ssoVal answers i idx creds).2.2
        (ssoStep passcode ssoSet ssoVal answers i idx creds).2.1 := by
  simp only [ssoLoop, he]

/-- If the first success among the remaining tries is at offset `i0`, the
password retry loop makes exactly `i0 + 1` further attempts and its last
attempt succeeds. -/
lemma attemptLoop_first_success (prompts : List (String × AuthPrompt)) (pks : List String)
    (answers : Nat → String) (auth : Nat → Option String) :
    ∀ (rem i0 idx callIdx : Nat) (creds : List (String × String)) (pf : String),
      i0 < rem → auth (callIdx + i0) = none →
      (∀ j, j < i0 → auth (callIdx + j) ≠ none) →
      (attemptLoop prompts pks answers auth rem idx callIdx creds pf).length = i0 + 1 ∧
      lastResult (attemptLoop prompts pks answers auth rem idx callIdx creds pf) = none := by
  intro rem
  induction rem with
  | zero => intro i0 _ _ _ _ hlt _ _; exact absurd hlt (Nat.not_lt_zero _)
  | succ n ih =>
      intro i0 idx callIdx creds pf hlt hsucc hfail
      cases i0 with
      | zero =>
          have he : auth callIdx = none := by simpa using hsucc
          rw [attemptLoop_succ_none prompts pks answers auth n idx callIdx creds pf he]
          simp [lastResult]
      | succ m =>
          have h0 : auth callIdx ≠ none := by
            have := hfail 0 (Nat.succ_pos m); simpa using this
          obtain ⟨e, he⟩ := Option.ne_none_iff_exists'.mp h0
          rw [attemptLoop_succ_some prompts pks answers auth n idx callIdx creds pf e he]
          have hsucc' : auth (callIdx + 1 + m) = none := by
            have : callIdx + 1 + m = callIdx + (m + 1) := by omega
            rw [this]; exact hsucc
          have hfail' : ∀ j, j < m → auth (callIdx + 1 + j) ≠ none := by
            intro j hj
            have : callIdx + 1 + j = callIdx + (j + 1) := by omega
            rw [this]; exact hfail (j + 1) (by omega)
          have hrec := ih m (askRetrySecrets prompts pks answers idx creds pf).nextAsk
            (callIdx + 1) (askRetrySecrets prompts pks answers idx creds pf).credentials
            (askRetrySecrets prompts pks answers idx creds pf).passwordFlagValue
            (by omega) hsucc' hfail'
          refine ⟨by simp [hrec.1], ?_⟩
          rw [lastResult_cons _ _ (List.length_pos.mp (by rw [hrec.1]; omega))]
          exact hrec.2

/-- If every remaining try fails, the password retry loop makes exactly
`rem` further attempts and (when it ran at all) its last attempt failed. -/
lemma attemptLoop_all_fail (prompts : List (String × AuthPrompt)) (pks : List String)
    (answers : Nat → String) (auth : Nat → Option String) :
    ∀ (rem idx callIdx : Nat) (creds : List (String × String)) (pf : String),
      (∀ j, j < rem → auth (callIdx + j) ≠ none) →
      (attemptLoop prompts pks answers auth rem idx callIdx creds pf).length = rem ∧
      (1 ≤ rem → ∃ e, lastResult (attemptLoop prompts pks answers auth rem idx callIdx creds pf) = some e) := by
  intro rem
  induction rem with
  | zero => intro idx callIdx creds pf _; simp [attemptLoop]
  | succ n ih =>
      intro idx callIdx creds pf hfail
      have h0 : auth callIdx ≠ none := by
        have := hfail 0 (Nat.succ_pos n); simpa using this
      obtain ⟨e, he⟩ := Option.ne_none_iff_exists'.mp h0
      rw [attemptLoop_succ_some prompts pks answers auth n idx callIdx creds pf e he]
      have hfail' : ∀ j, j < n → auth (callIdx + 1 + j) ≠ none := by
        intro j hj
        have : callIdx + 1 + j = callIdx + (j + 1) := by omega
        rw [this]; exact hfail (j + 1) (by omega)
      have hrec := ih (askRetrySecrets prompts pks answers idx creds pf).nextAsk
        (callIdx + 1) (askRetrySecrets prompts pks answers idx creds pf).credentials
        (askRetrySecrets prompts pks answers idx creds pf).passwordFlagValue hfail'
      refine ⟨by simp [hrec.1], fun _ => ?_⟩
      cases n with
      | zero =>
          have : attemptLoop prompts pks answers auth 0
              (askRetrySecrets prompts pks answers idx creds pf).nextAsk (callIdx + 1)
              (askRetrySecrets prompts pks answers idx creds pf).credentials
              (askRetrySecrets prompts pks answers idx creds pf).passwordFlagValue = [] := rfl
          rw [this]
          exact ⟨e, rfl⟩
      | succ m =>
          obtain ⟨e2, he2⟩ := hrec.2 (by omega)
          refine ⟨e2, ?_⟩
          rw [lastResult_cons _ _ (List.length_pos.mp (by rw [hrec.1]; omega))]
          exact he2

/-- Analogue of `attemptLoop_first_success` for the SSO loop. -/
lemma ssoLoop_first_success (passcode : AuthPrompt) (ssoSet : Bool) (ssoVal : String)
    (answers : Nat → String) (auth : Nat → Option String) :
    ∀ (rem i0 i idx : Nat) (creds : List (String × String)),
      i0 < rem → auth (i + i0) = none →
      (∀ j, j < i0 → auth (i + j) ≠ none) →
      (ssoLoop passcode ssoSet ssoVal answers auth rem i idx creds).length = i0 + 1 ∧
      lastResult (ssoLoop passcode ssoSet ssoVal answers auth rem i idx creds) = none := by
  intro rem
  induction rem with
  | zero => intro i0 _ _ _ hlt _ _; exact absurd hlt (Nat.not_lt_zero _)
  | succ n ih =>
      intro i0 i idx creds hlt hsucc hfail
      cases i0 with
      | zero =>
          have he : auth i = none := by simpa using hsucc
          rw [ssoLoop_succ_none passcode ssoSet ssoVal answers auth n i idx creds he]
          simp [lastResult]
      | succ m =>
          have h0 : auth i ≠ none := by
            have := hfail 0 (Nat.succ_pos m); simpa using this
          obtain ⟨e, he⟩ := Option.ne_none_iff_exists'.mp h0
          rw [ssoLoop_succ_some passcode ssoSet ssoVal answers auth n i idx creds e he]
          have hsucc' : auth (i + 1 + m) = none := by
            have : i + 1 + m = i + (m + 1) := by omega
            rw [this]; exact hsucc
          have hfail' : ∀ j, j < m → auth (i + 1 + j) ≠ none := by
            intro j hj
            have : i + 1 + j = i + (j + 1) := by omega
            rw [this]; exact hfail (j + 1) (by omega)
          have hrec := ih m (i + 1)
            (ssoStep passcode ssoSet ssoVal answers i idx creds).2.2
            (ssoStep passcode ssoSet ssoVal answers i idx creds).2.1
            (by omega) hsucc' hfail'
          refine ⟨by simp [hrec.1], ?_⟩
          rw [lastResult_cons _ _ (List.length_pos.mp (by rw [hrec.1]; omega))]
          exact hrec.2

/-- Analogue of `attemptLoop_all_fail` for the SSO loop. -/
lemma ssoLoop_all_fail (passcode : AuthPrompt) (ssoSet : Bool) (ssoVal : String)
    (answers : Nat → String) (auth : Nat → Option String) :
    ∀ (rem i idx : Nat) (creds : List (String × String)),
      (∀ j, j < rem → auth (i + j) ≠ none) →
      (ssoLoop passcode ssoSet ssoVal answers auth rem i idx creds).length = rem ∧
      (1 ≤ rem → ∃ e, lastResult (ssoLoop passcode ssoSet ssoVal answers auth rem i idx creds) = some e) := by
  intro rem
  induction rem with
  | zero => intro i idx creds _; simp [ssoLoop]
  | succ n ih =>
      intro i idx creds hfail
      have h0 : auth i ≠ none := by
        have := hfail 0 (Nat.succ_pos n); simpa using this
      obtain ⟨e, he⟩ := Option.ne_none_iff_exists'.mp h0
      rw [ssoLoop_succ_some passcode ssoSet ssoVal answers auth n i idx creds e he]
      have hfail' : ∀ j, j < n → auth (i + 1 + j) ≠ none := by
        intro j hj
        have : i + 1 + j = i + (j + 1) := by omega
        rw [this]; exact hfail (j + 1) (by omega)
      have hrec := ih (i + 1)
        (ssoStep passcode ssoSet ssoVal answers i idx creds).2.2
        (ssoStep passcode ssoSet ssoVal answers i idx creds).2.1 hfail'
      refine ⟨by simp [hrec.1], fun _ => ?_⟩
      cases n with
      | zero =>
          have : ssoLoop passcode ssoSet ssoVal answers auth 0 (i + 1)
              (ssoStep passcode ssoSet ssoVal answers i idx creds).2.2
              (ssoStep passcode ssoSet ssoVal answers i idx creds).2.1 = [] := rfl
          rw [this]
          exact ⟨e, rfl⟩
      | succ m =>
          obtain ⟨e2, he2⟩ := hrec.2 (by omega)
          refine ⟨e2, ?_⟩
          rw [lastResult_cons _ _ (List.length_pos.mp (by rw [hrec.1]; omega))]
          exact he2

lemma lookup_upsert_self (k v : String) :
    ∀ m : List (String × String), ((upsert k v m).lookup k) = some v := by
  intro m
  induction m with
  | nil => simp [upsert, List.lookup]
  | cons p rest ih =>
      obtain ⟨k', v'⟩ := p
      by_cases h : k' = k
      · subst h
        simp [upsert, List.lookup]
      · have hne : (k == k') = false := beq_eq_false_iff_ne.mpr (Ne.symm h)
        simp [upsert, h, List.lookup, hne, ih]

lemma lookup_upsert_ne (a k v : String) (h : a ≠ k) :
    ∀ m : List (String × String), ((upsert k v m).lookup a) = m.lookup a := by
  intro m
  induction m with
  | nil => simp [upsert, List.lookup, beq_eq_false_iff_ne.mpr h]
  | cons p rest ih =>
      obtain ⟨k', v'⟩ := p
      by_cases hk : k' = k
      · subst hk
        simp [upsert, List.lookup, beq_eq_false_iff_ne.mpr h]
      · by_cases ha : a = k'
        · subst ha
          simp [upsert, hk, List.lookup]
        · simp [upsert, hk, List.lookup, beq_eq_false_iff_ne.mpr ha, ih]

/-- The per-attempt secret prompts leave every credential entry outside
their keys untouched. -/
lemma askPasswordKeys_lookup_notin (prompts : List (String × AuthPrompt))
    (answers : Nat → String) (a : String) :
    ∀ (keys : List String) (idx : Nat) (creds : List (String × String)), a ∉ keys →
      (((askPasswordKeys prompts answers keys idx creds).2.1).lookup a) = creds.lookup a := by
  intro keys
  induction keys with
  | nil => intro idx creds _; rfl
  | cons key rest ih =>
      intro idx creds hna
      have h1 : a ≠ key := fun h => hna (h ▸ List.mem_cons_self _ _)
      have h2 : a ∉ rest := fun h => hna (List.mem_cons_of_mem _ h)
      simp only [askPasswordKeys]
      rw [ih _ _ h2, lookup_upsert_ne a key _ h1]

/-- The events of `askPasswordKeys` are `retryAskEvents`, independently of
the credentials threaded through. -/
lemma askPasswordKeys_fst (prompts : List (String × AuthPrompt)) (answers : Nat → String) :
    ∀ (keys : List String) (idx : Nat) (creds : List (String × String)),
      (askPasswordKeys prompts answers keys idx creds).1 =
        retryAskEvents prompts answers keys idx := by
  intro keys
  induction keys with
  | nil => intro idx creds; rfl
  | cons key rest ih =>
      intro idx creds
      simp [askPasswordKeys, retryAskEvents, ih]

/-- Lemma: `scanPrompts` collects exactly `passwordKeysOf` the catalog. -/
lemma scanPrompts_passwordKeys (answers : Nat → String) :
    ∀ (l : List (String × AuthPrompt)) (idx : Nat) (creds : List (String × String)),
      (scanPrompts answers l idx creds).passwordKeys = passwordKeysOf l := by
  intro l
  induction l with
  | nil => intro idx creds; rfl
  | cons p rest ih =>
      intro idx creds
      obtain ⟨key, prompt⟩ := p
      by_cases h1 : prompt.type = AuthPromptType.password
      · by_cases h2 : key = "passcode" ∨ key = "password"
        · simp [scanPrompts, passwordKeysOf, h1, h2, ih]
        · simp [scanPrompts, passwordKeysOf, h1, h2, ih]
      · by_cases h3 : key = "username"
        · simp [scanPrompts, passwordKeysOf, h1, h3, ih]
        · simp [scanPrompts, passwordKeysOf, h1, h3, ih]

/-- The key `"password"` is never retry-scoped: `scanPrompts` skips it
explicitly. -/
lemma password_notin_passwordKeysOf :
    ∀ l : List (String × AuthPrompt), "password" ∉ passwordKeysOf l := by
  intro l
  induction l with
  | nil => simp [passwordKeysOf]
  | cons p rest ih =>
      obtain ⟨key, prompt⟩ := p
      by_cases h1 : prompt.type = AuthPromptType.password
      · by_cases h2 : key = "passcode" ∨ key = "password"
        · simpa [passwordKeysOf, h1, h2] using ih
        · have hkey : key ≠ "password" := fun h => h2 (Or.inr h)
          simp [passwordKeysOf, h1, h2]
          exact ⟨fun h => hkey h.symm, ih⟩
      · simpa [passwordKeysOf, h1] using ih

/-- One attempt's secret phase when a `"password"` prompt exists and the
`-p` override is still pending: the override fills the password credential
with no interactive password prompt, and is cleared. -/
lemma askRetrySecrets_override (prompts : List (String × AuthPrompt)) (pks : List String)
    (answers : Nat → String) (idx : Nat) (creds : List (String × String)) (pFlag : String)
    (pp : AuthPrompt) (hpp : prompts.lookup "password" = some pp) (hpf : pFlag ≠ "") :
    askRetrySecrets prompts pks answers idx creds pFlag =
      ⟨retryAskEvents prompts answers pks idx,
       (askPasswordKeys prompts answers pks idx (upsert "password" pFlag creds)).2.1,
       (askPasswordKeys prompts answers pks idx (upsert "password" pFlag creds)).2.2,
       ""⟩ := by
  simp [askRetrySecrets, hpp, hpf, askPasswordKeys_fst]

/-- One attempt's secret phase when a `"password"` prompt exists and no
override is pending: the password is asked interactively, before the other
retry-scoped secrets. -/
lemma askRetrySecrets_interactive (prompts : List (String × AuthPrompt)) (pks : List String)
    (answers : Nat → String) (idx : Nat) (creds : List (String × String))
    (pp : AuthPrompt) (hpp : prompts.lookup "password" = some pp) :
    askRetrySecrets prompts pks answers idx creds "" =
      ⟨UIEvent.askForPassword pp.displayName (answers idx) ::
         retryAskEvents prompts answers pks (idx + 1),
       (askPasswordKeys prompts answers pks (idx + 1)
         (upsert "password" (answers idx) creds)).2.1,
       (askPasswordKeys prompts answers pks (idx + 1)
         (upsert "password" (answers idx) creds)).2.2,
       ""⟩ := by
  simp [askRetrySecrets, hpp, askPasswordKeys_fst]

/-- Every attempt of the retry loop entered with a cleared password override
asks the password interactively and uses that answer as the `"password"`
credential. -/
lemma attemptLoop_password_invariant (prompts : List (String × AuthPrompt))
    (pks : List String) (answers : Nat → String) (auth : Nat → Option String)
    (pp : AuthPrompt) (hpp : prompts.lookup "password" = some pp)
    (hpk : "password" ∉ pks) :
    ∀ (rem idx callIdx : Nat) (creds : List (String × String)),
      ∀ r ∈ attemptLoop prompts pks answers auth rem idx callIdx creds "",
        ∃ ans, UIEvent.askForPassword pp.displayName ans ∈ r.events ∧
          (r.credentials.lookup "password") = some ans := by
  intro rem
  induction rem with
  | zero => intro idx callIdx creds r hr; simp [attemptLoop] at hr
  | succ n ih =>
      intro idx callIdx creds r hr
      rcases h0 : auth callIdx with _ | e
      · rw [attemptLoop_succ_none prompts pks answers auth n idx callIdx creds "" h0,
          askRetrySecrets_interactive prompts pks answers idx creds pp hpp] at hr
        simp only [List.mem_singleton] at hr
        subst hr
        refine ⟨answers idx, by simp, ?_⟩
        simp only []
        rw [askPasswordKeys_lookup_notin prompts answers "password" pks _ _ hpk,
          lookup_upsert_self]
      · rw [attemptLoop_succ_some prompts pks answers auth n idx callIdx creds "" e h0,
          askRetrySecrets_interactive prompts pks answers idx creds pp hpp] at hr
        rcases List.mem_cons.mp hr with hr | hr
        · subst hr
          refine ⟨answers idx, by simp, ?_⟩
          simp only []
          rw [askPasswordKeys_lookup_notin prompts answers "password" pks _ _ hpk,
            lookup_upsert_self]
        · exact ih _ (callIdx + 1) _ r hr

/-- In every attempt of the password retry loop (whatever the pending
override), the attempt's events are: an optional interactive password
prompt, then exactly the retry-scoped secret prompts, then only
non-prompt events. -/
lemma attemptLoop_events_shape (prompts : List (String × AuthPrompt))
    (pks : List String) (answers : Nat → String) (auth : Nat → Option String)
    (pp : AuthPrompt) (hpp : prompts.lookup "password" = some pp) :
    ∀ (rem idx callIdx : Nat) (creds : List (String × String)) (pFlag : String),
      ∀ r ∈ attemptLoop prompts pks answers auth rem idx callIdx creds pFlag,
        ∃ pwEvs idx2 tailEvs,
          r.events = pwEvs ++ retryAskEvents prompts answers pks idx2 ++ tailEvs ∧
          (pwEvs = [] ∨ ∃ a, pwEvs = [UIEvent.askForPassword pp.displayName a]) ∧
          ∀ l a, UIEvent.askForPassword l a ∉ tailEvs := by
  intro rem
  induction rem with
  | zero => intro idx callIdx creds pFlag r hr; simp [attemptLoop] at hr
  | succ n ih =>
      intro idx callIdx creds pFlag r hr
      by_cases hpf : pFlag = ""
      · subst hpf
        rcases h0 : auth callIdx with _ | e
        · rw [attemptLoop_succ_none prompts pks answers auth n idx callIdx creds "" h0,
            askRetrySecrets_interactive prompts pks answers idx creds pp hpp] at hr
          simp only [List.mem_singleton] at hr
          subst hr
          refine ⟨[UIEvent.askForPassword pp.displayName (answers idx)], idx + 1,
            [UIEvent.say "Authenticating...", UIEvent.ok, UIEvent.say ""], by simp,
            Or.inr ⟨answers idx, rfl⟩, by simp⟩
        · rw [attemptLoop_succ_some prompts pks answers auth n idx callIdx creds "" e h0,
            askRetrySecrets_interactive prompts pks answers idx creds pp hpp] at hr
          rcases List.mem_cons.mp hr with hr | hr
          · subst hr
            refine ⟨[UIEvent.askForPassword pp.displayName (answers idx)], idx + 1,
              [UIEvent.say "Authenticating...", UIEvent.say e], by simp,
              Or.inr ⟨answers idx, rfl⟩, by simp⟩
          · exact ih _ (callIdx + 1) _ _ r hr
      · rcases h0 : auth callIdx with _ | e
        · rw [attemptLoop_succ_none prompts pks answers auth n idx callIdx creds pFlag h0,
            askRetrySecrets_override prompts pks answers idx creds pFlag pp hpp hpf] at hr
          simp only [List.mem_singleton] at hr
          subst hr
          exact ⟨[], idx, [UIEvent.say "Authenticating...", UIEvent.ok, UIEvent.say ""],
            by simp, Or.inl rfl, by simp⟩
        · rw [attemptLoop_succ_some prompts pks answers auth n idx callIdx creds pFlag e h0,
            askRetrySecrets_override prompts pks answers idx creds pFlag pp hpp hpf] at hr
          rcases List.mem_cons.mp hr with hr | hr
          · subst hr
            exact ⟨[], idx, [UIEvent.say "Authenticating...", UIEvent.say e],
              by simp, Or.inl rfl, by simp⟩
          · exact ih _ (callIdx + 1) _ _ r hr

/-- C4: for every outcome sequence, each authentication loop (password flow
and SSO flow) calls `Authenticate` exactly `min k maxLoginTries` times,
where `k` is the 1-based attempt at which it first succeeds (the hypotheses
characterize `k`: every earlier attempt fails, and attempt `k` succeeds when
it is within the bound); when no attempt within the bound succeeds, exactly
`maxLoginTries = 3` calls occur and the flow returns the single generic
failure message "Unable to authenticate.", a constant that does not carry
the last underlying cause. -/
theorem login_retry_call_count :
    ∀ (k : Nat) (uaaGrantType usernameFlagValue passwordFlagValue : String)
      (prompts : List (String × AuthPrompt)) (ssoPasscodeSet : Bool)
      (ssoPasscodeValue authenticationEndpoint : String)
      (answers : Nat → String) (auth : Nat → Option String),
      uaaGrantType ≠ "client_credentials" →
      1 ≤ k →
      (∀ j, j + 1 < k → auth j ≠ none) →
      (k ≤ maxLoginTries → auth (k - 1) = none) →
      ((loginAuthenticate uaaGrantType usernameFlagValue passwordFlagValue
          (Except.ok prompts) answers auth).attempts.length = min k maxLoginTries ∧
       (loginAuthenticate uaaGrantType usernameFlagValue passwordFlagValue
          (Except.ok prompts) answers auth).result =
         (if k ≤ maxLoginTries then Except.ok ()
          else Except.error "Unable to authenticate.") ∧
       (loginAuthenticateSSO ssoPasscodeSet ssoPasscodeValue authenticationEndpoint
          (Except.ok prompts) answers auth).attempts.length = min k maxLoginTries ∧
       (loginAuthenticateSSO ssoPasscodeSet ssoPasscodeValue authenticationEndpoint
          (Except.ok prompts) answers auth).result =
         (if k ≤ maxLoginTries then Except.ok ()
          else Except.error "Unable to authenticate.")) := by
  intro k uaaGrantType uFlag pFlag prompts ssoSet ssoVal authEp answers auth
  intro huaa hk h1 h2
  have hmax : maxLoginTries = 3 := rfl
  by_cases hk3 : k ≤ maxLoginTries
  · have hsucc : auth (0 + (k - 1)) = none := by simpa using h2 hk3
    have hfail : ∀ j, j < k - 1 → auth (0 + j) ≠ none := by
      intro j hj
      simpa using h1 j (by omega)
    have hlt : k - 1 < maxLoginTries := by omega
    have hmin : min k maxLoginTries = k := Nat.min_eq_left hk3
    refine ⟨?_, ?_, ?_, ?_⟩
    · simp only [loginAuthenticate, if_neg huaa]
      rw [(attemptLoop_first_success prompts _ answers auth maxLoginTries (k - 1)
        _ 0 _ pFlag hlt hsucc hfail).1, hmin]
      omega
    · simp only [loginAuthenticate, if_neg huaa]
      rw [(attemptLoop_first_success prompts _ answers auth maxLoginTries (k - 1)
        _ 0 _ pFlag hlt hsucc hfail).2, if_pos hk3]
    · simp only [loginAuthenticateSSO]
      rw [(ssoLoop_first_success _ ssoSet ssoVal answers auth maxLoginTries (k - 1)
        0 0 [] hlt hsucc hfail).1, hmin]
      omega
    · simp only [loginAuthenticateSSO]
      rw [(ssoLoop_first_success _ ssoSet ssoVal answers auth maxLoginTries (k - 1)
        0 0 [] hlt hsucc hfail).2, if_pos hk3]
  · have hfail : ∀ j, j < maxLoginTries → auth (0 + j) ≠ none := by
      intro j hj
      simpa using h1 j (by omega)
    have hmin : min k maxLoginTries = maxLoginTries := Nat.min_eq_right (by omega)
    refine ⟨?_, ?_, ?_, ?_⟩
    · simp only [loginAuthenticate, if_neg huaa]
      rw [(attemptLoop_all_fail prompts _ answers auth maxLoginTries _ 0 _ pFlag hfail).1, hmin]
    · simp only [loginAuthenticate, if_neg huaa]
      obtain ⟨e1, he1⟩ := (attemptLoop_all_fail prompts _ answers auth maxLoginTries
        _ 0 _ pFlag hfail).2 (by rw [hmax]; omega)
      rw [he1, if_neg hk3]
    · simp only [loginAuthenticateSSO]
      rw [(ssoLoop_all_fail _ ssoSet ssoVal answers auth maxLoginTries 0 0 [] hfail).1, hmin]
    · simp only [loginAuthenticateSSO]
      obtain ⟨e2, he2⟩ := (ssoLoop_all_fail _ ssoSet ssoVal answers auth maxLoginTries
        0 0 [] hfail).2 (by rw [hmax]; omega)
      rw [he2, if_neg hk3]

/-- C4 witness: with an authenticator that fails once and then succeeds
(first success at attempt k = 2), both flows make exactly 2 calls and
succeed. -/
theorem login_retry_call_count_witness :
    (loginAuthenticate "" "user" "pw" (Except.ok promptsEx) answersEx authEx).attempts.length = 2 ∧
    (loginAuthenticate "" "user" "pw" (Except.ok promptsEx) answersEx authEx).result = Except.ok () ∧
    (loginAuthenticateSSO false "" "" (Except.ok promptsEx) answersEx authEx).attempts.length = 2 ∧
    (loginAuthenticateSSO false "" "" (Except.ok promptsEx) answersEx authEx).result = Except.ok () := by
  have H := login_retry_call_count 2 "" "user" "pw" promptsEx false "" "" answersEx authEx
    (by decide) (by decide)
    (fun j hj => by
      have hj0 : j = 0 := by omega
      subst hj0
      simp [authEx])
    (fun _ => rfl)
  simpa [maxLoginTries] using H

/-- C5: when the catalog has a `"password"` prompt and a non-empty `-p`
override was supplied, the first attempt's `Authenticate` call carries the
override verbatim as the `"password"` credential, and every later attempt
asks for the password interactively (as a secret, by the password prompt's
label) and carries that interactive answer instead: the override is consumed
once and never reused. -/
theorem password_override_first_attempt_only :
    ∀ (uaaGrantType usernameFlagValue passwordFlagValue : String)
      (prompts : List (String × AuthPrompt)) (pp : AuthPrompt)
      (answers : Nat → String) (auth : Nat → Option String),
      uaaGrantType ≠ "client_credentials" →
      prompts.lookup "password" = some pp →
      passwordFlagValue ≠ "" →
      ((loginAuthenticate uaaGrantType usernameFlagValue passwordFlagValue
          (Except.ok prompts) answers auth).attempts.head?.map
            fun r => r.credentials.lookup "password") = some (some passwordFlagValue) ∧
      ∀ r ∈ (loginAuthenticate uaaGrantType usernameFlagValue passwordFlagValue
          (Except.ok prompts) answers auth).attempts.tail,
        ∃ ans, UIEvent.askForPassword pp.displayName ans ∈ r.events ∧
          (r.credentials.lookup "password") = some ans := by
  intro uaaGrantType uFlag pFlag prompts pp answers auth huaa hpp hpf
  have hpk : "password" ∉ passwordKeysOf prompts := password_notin_passwordKeysOf prompts
  constructor
  · simp only [loginAuthenticate, if_neg huaa]
    rw [scanPrompts_passwordKeys]
    rcases h0 : auth 0 with _ | e
    · rw [show maxLoginTries = 2 + 1 from rfl,
        attemptLoop_succ_none prompts _ answers auth 2 _ 0 _ pFlag h0,
        askRetrySecrets_override prompts _ answers _ _ pFlag pp hpp hpf]
      simp only [List.head?_cons, Option.map_some']
      rw [askPasswordKeys_lookup_notin prompts answers "password" _ _ _ hpk,
        lookup_upsert_self]
    · rw [show maxLoginTries = 2 + 1 from rfl,
        attemptLoop_succ_some prompts _ answers auth 2 _ 0 _ pFlag e h0,
        askRetrySecrets_override prompts _ answers _ _ pFlag pp hpp hpf]
      simp only [List.head?_cons, Option.map_some']
      rw [askPasswordKeys_lookup_notin prompts answers "password" _ _ _ hpk,
        lookup_upsert_self]
  · simp only [loginAuthenticate, if_neg huaa]
    rw [scanPrompts_passwordKeys]
    rcases h0 : auth 0 with _ | e
    · rw [show maxLoginTries = 2 + 1 from rfl,
        attemptLoop_succ_none prompts _ answers auth 2 _ 0 _ pFlag h0]
      simp
    · rw [show maxLoginTries = 2 + 1 from rfl,
        attemptLoop_succ_some prompts _ answers auth 2 _ 0 _ pFlag e h0,
        askRetrySecrets_override prompts _ answers _ _ pFlag pp hpp hpf]
      simp only [List.tail_cons]
      exact attemptLoop_password_invariant prompts _ answers auth pp hpp hpk 2 _ 1 _

/-- C5 witness: with catalog `promptsEx` (whose password prompt is labelled
"Password"), override "pw" and an always-failing authenticator, the first
attempt carries "pw" and each of the two later attempts asks for the
password interactively. -/
theorem password_override_first_attempt_only_witness :
    ((loginAuthenticate "" "user" "pw" (Except.ok promptsEx) answersEx authFailEx).attempts.head?.map
        fun r => r.credentials.lookup "password") = some (some "pw") ∧
    ∀ r ∈ (loginAuthenticate "" "user" "pw" (Except.ok promptsEx) answersEx authFailEx).attempts.tail,
      ∃ ans, UIEvent.askForPassword "Password" ans ∈ r.events ∧
        (r.credentials.lookup "password") = some ans :=
  password_override_first_attempt_only "" "user" "pw" promptsEx
    ⟨AuthPromptType.password, "Password"⟩ answersEx authFailEx
    (by decide) (by decide) (by decide)

/-- C9 (implicit): on every attempt of the password flow whose catalog has a
`"password"` prompt, the attempt's events decompose as: at most one
interactive password prompt (exactly the password prompt's label; absent
only when the one-shot `-p` override filled the credential instead),
followed by ALL of the attempt's other retry-scoped secret prompts
(`retryAskEvents` over `passwordKeysOf`), followed by events that contain no
secret prompt at all — i.e. whenever the password is requested, it is
requested before every other retry-scoped secret of that attempt. -/
theorem password_prompted_before_other_secrets :
    ∀ (uaaGrantType usernameFlagValue passwordFlagValue : String)
      (prompts : List (String × AuthPrompt)) (pp : AuthPrompt)
      (answers : Nat → String) (auth : Nat → Option String),
      uaaGrantType ≠ "client_credentials" →
      prompts.lookup "password" = some pp →
      ∀ r ∈ (loginAuthenticate uaaGrantType usernameFlagValue passwordFlagValue
          (Except.ok prompts) answers auth).attempts,
        ∃ pwEvs idx2 tailEvs,
          r.events = pwEvs ++ retryAskEvents prompts answers (passwordKeysOf prompts) idx2 ++ tailEvs ∧
          (pwEvs = [] ∨ ∃ a, pwEvs = [UIEvent.askForPassword pp.displayName a]) ∧
          ∀ l a, UIEvent.askForPassword l a ∉ tailEvs := by
  intro uaaGrantType uFlag pFlag prompts pp answers auth huaa hpp
  intro r hr
  simp only [loginAuthenticate, if_neg huaa] at hr
  rw [scanPrompts_passwordKeys] at hr
  exact attemptLoop_events_shape prompts _ answers auth pp hpp maxLoginTries _ 0 _ pFlag r hr

/-- C9 witness: the decomposition evaluated on the concrete catalog
`promptsEx` with an always-failing authenticator, at the run's first attempt
record. -/
theorem password_prompted_before_other_secrets_witness :
    ∃ pwEvs idx2 tailEvs,
      ((loginAuthenticate "" "user" "pw" (Except.ok promptsEx) answersEx authFailEx).attempts.headD
          ⟨[], [], none⟩).events =
        pwEvs ++ retryAskEvents promptsEx answersEx (passwordKeysOf promptsEx) idx2 ++ tailEvs ∧
      (pwEvs = [] ∨ ∃ a, pwEvs = [UIEvent.askForPassword "Password" a]) ∧
      ∀ l a, UIEvent.askForPassword l a ∉ tailEvs :=
  password_prompted_before_other_secrets "" "user" "pw" promptsEx
    ⟨AuthPromptType.password, "Password"⟩ answersEx authFailEx (by decide) (by decide)
    ((loginAuthenticate "" "user" "pw" (Except.ok promptsEx) answersEx authFailEx).attempts.headD
      ⟨[], [], none⟩)
    (by decide)

/-- The enumerated menu says are exactly the 1-based numbering of the listed
names, in order. -/
lemma enumeratedSaysFrom_eq :
    ∀ (names : List String) (i : Nat),
      enumeratedSaysFrom i names =
        (List.range names.length).map fun j =>
          UIEvent.say (toString (i + j + 1) ++ ". " ++ names.getD j "") := by
  intro names
  induction names with
  | nil => intro i; simp [enumeratedSaysFrom]
  | cons n rest ih =>
      intro i
      rw [enumeratedSaysFrom, ih (i + 1), List.length_cons, List.range_succ_eq_map,
        List.map_cons, List.map_map]
      congr 1
      · refine List.map_congr_left fun j hj => ?_
        simp only [Function.comp_apply, List.getD_cons_succ]
        rw [show i + (j + 1) + 1 = i + 1 + j + 1 from by omega]

/-- Every run of the selection loop that gets at least one iteration starts
by displaying the menu block and asking once. -/
lemma promptForName_events_prefix (names : List String) (listPrompt itemPrompt : String)
    (answers : Nat → String) (fuel idx : Nat) :
    ∃ rest, (promptForName names listPrompt itemPrompt answers (fuel + 1) idx).1 =
      menuEvents names listPrompt ++ UIEvent.ask itemPrompt (answers idx) :: rest := by
  simp only [promptForName]
  by_cases h : answers idx = ""
  · exact ⟨[], by simp [h]⟩
  · rcases hA : goAtoi (answers idx) with _ | k
    · exact ⟨[], by simp [h, hA]⟩
    · by_cases hk : 1 ≤ k ∧ k ≤ (names.length : Int)
      · exact ⟨[], by simp [h, hA, hk]⟩
      · exact ⟨(promptForName names listPrompt itemPrompt answers fuel (idx + 1)).1,
          by simp [h, hA, hk]⟩

/-- With at least two organizations and no override, the organization stage
always begins with one menu display block followed by the name prompt,
whatever the user answers and however the stage then ends. -/
lemma setOrganization_menu_prefix (orgs : List Organization)
    (findOrg : String → Except String Organization)
    (answers : Nat → String) (fuel : Nat) (h2 : 2 ≤ orgs.length) :
    ∃ rest, (setOrganization "" (Except.ok orgs) findOrg answers (fuel + 1)).events =
      menuEvents (orgs.map Organization.name) "Select an org (or press enter to skip):" ++
        UIEvent.ask "Org" (answers 0) :: rest := by
  obtain ⟨r1, hr1⟩ := promptForName_events_prefix (orgs.map Organization.name)
    "Select an org (or press enter to skip):" "Org" answers fuel 0
  have hne0 : ¬ orgs.length = 0 := by omega
  have hne1 : ¬ orgs.length = 1 := by omega
  rcases hres : (promptForName (orgs.map Organization.name)
      "Select an org (or press enter to skip):" "Org" answers (fuel + 1) 0).2 with _ | s
  · exact ⟨r1, by simp [setOrganization, hne0, hne1, hres, hr1]⟩
  · by_cases hs : s = ""
    · subst hs
      exact ⟨r1 ++ [UIEvent.say ""],
        by simp [setOrganization, hne0, hne1, hres, hr1]⟩
    · exact ⟨r1 ++ (findAndTargetOrg findOrg s).events,
        by simp [setOrganization, hne0, hne1, hres, hs, hr1]⟩

/-- C7: organization selection with no `-o` override, by listed count N.
N = 0: no target, no error, no terminal interaction at all, and the whole
targeting phase ends there — the space stage never runs, for every space-side
input.  N = 1: the single organization is auto-targeted with no prompt (the
only event is the confirmation).  2 ≤ N < 50: the stage displays the header
followed by the 1-based enumerated menu and then prompts for the name.
N ≥ 50: the stage displays the header, then only the type-the-name
instruction (no enumerated entries), and then prompts for the name. -/
theorem org_selection_count_cases :
    ∀ (orgs : List Organization) (org : Organization)
      (findOrg : String → Except String Organization)
      (spaceFlag : String) (spacesRes : Except String (List Space))
      (findSpace : String → Except String Space)
      (answersOrg answersSpace : Nat → String) (fuel fuelSpace : Nat),
      (setOrganization "" (Except.ok []) findOrg answersOrg fuel =
        ⟨[], false, none, none⟩) ∧
      (loginTargetPhase "" spaceFlag (Except.ok []) findOrg spacesRes findSpace
          answersOrg answersSpace fuel fuelSpace = ([], none)) ∧
      (setOrganization "" (Except.ok [org]) findOrg answersOrg fuel =
        ⟨[UIEvent.say ("Targeted org " ++ org.name ++ "\n")], true, some org, none⟩) ∧
      (2 ≤ orgs.length → orgs.length < maxChoices → ∃ rest,
        (setOrganization "" (Except.ok orgs) findOrg answersOrg (fuel + 1)).events =
          UIEvent.say "Select an org (or press enter to skip):" ::
            ((List.range orgs.length).map fun j =>
              UIEvent.say (toString (j + 1) ++ ". " ++ (orgs.map Organization.name).getD j "")) ++
            UIEvent.ask "Org" (answersOrg 0) :: rest) ∧
      (maxChoices ≤ orgs.length → ∃ rest,
        (setOrganization "" (Except.ok orgs) findOrg answersOrg (fuel + 1)).events =
          UIEvent.say "Select an org (or press enter to skip):" ::
            UIEvent.say "There are too many options to display, please type in the name." ::
            UIEvent.ask "Org" (answersOrg 0) :: rest) := by
  intro orgs org findOrg spaceFlag spacesRes findSpace answersOrg answersSpace fuel fuelSpace
  refine ⟨rfl, rfl, rfl, ?_, ?_⟩
  · intro h2 h50
    obtain ⟨rest, hrest⟩ := setOrganization_menu_prefix orgs findOrg answersOrg fuel h2
    refine ⟨rest, ?_⟩
    rw [hrest, menuEvents, if_pos (by rw [List.length_map]; exact h50),
      enumeratedSaysFrom_eq, List.length_map]
    simp [List.cons_append]
  · intro h50
    have hmc : maxChoices = 50 := rfl
    obtain ⟨rest, hrest⟩ := setOrganization_menu_prefix orgs findOrg answersOrg fuel (by omega)
    refine ⟨rest, ?_⟩
    rw [hrest, menuEvents, if_neg (by rw [List.length_map]; omega)]
    simp [List.cons_append]

/-- C7 witness: the five cases evaluated on concrete listings (empty, one
organization, two organizations, fifty organizations). -/
theorem org_selection_count_cases_witness :
    (setOrganization "" (Except.ok []) findOrgFailEx (fun _ => "") 1 =
      ⟨[], false, none, none⟩) ∧
    (loginTargetPhase "" "" (Except.ok []) findOrgFailEx (Except.ok [])
        findSpaceFailEx (fun _ => "") (fun _ => "") 1 1 = ([], none)) ∧
    (setOrganization "" (Except.ok [⟨"g1", "alpha"⟩]) findOrgFailEx (fun _ => "") 1 =
      ⟨[UIEvent.say ("Targeted org " ++ "alpha" ++ "\n")], true, some ⟨"g1", "alpha"⟩, none⟩) ∧
    (∃ rest, (setOrganization "" (Except.ok orgs2Ex) findOrgFailEx (fun _ => "") (1 + 1)).events =
      UIEvent.say "Select an org (or press enter to skip):" ::
        ((List.range orgs2Ex.length).map fun j =>
          UIEvent.say (toString (j + 1) ++ ". " ++ (orgs2Ex.map Organization.name).getD j "")) ++
        UIEvent.ask "Org" "" :: rest) ∧
    (∃ rest, (setOrganization "" (Except.ok orgs50Ex) findOrgFailEx (fun _ => "") (1 + 1)).events =
      UIEvent.say "Select an org (or press enter to skip):" ::
        UIEvent.say "There are too many options to display, please type in the name." ::
        UIEvent.ask "Org" "" :: rest) := by
  have H2 := org_selection_count_cases orgs2Ex ⟨"g1", "alpha"⟩ findOrgFailEx ""
    (Except.ok []) findSpaceFailEx (fun _ => "") (fun _ => "") 1 1
  have H50 := org_selection_count_cases orgs50Ex ⟨"g1", "alpha"⟩ findOrgFailEx ""
    (Except.ok []) findSpaceFailEx (fun _ => "") (fun _ => "") 1 1
  exact ⟨H2.1, H2.2.1, H2.2.2.1,
    H2.2.2.2.1 (by decide) (by decide),
    H50.2.2.2.2 (by simp [orgs50Ex, maxChoices])⟩

/-- C8: one iteration of `Login.promptForName`'s selection loop, by answer
kind.  An empty answer ends the loop with no selection.  An answer `Atoi`
parses to an index inside `[1, N]` returns the corresponding listed name
(1-based).  An answer `Atoi` cannot parse (a non-numeric string — or, the
same to `strconv.Atoi`, a numeral beyond the `int` range) is returned
verbatim as a literal name, with no membership check against `names` (the
conjunct holds for every `names`, unrelated to the answer).  Any other
parsed index re-prompts: the loop recurses on the next answer, accumulating
this iteration's events. -/
theorem promptForName_cases :
    ∀ (names : List String) (listPrompt itemPrompt : String)
      (answers : Nat → String) (fuel idx : Nat),
      (answers idx = "" →
        promptForName names listPrompt itemPrompt answers (fuel + 1) idx =
          (menuEvents names listPrompt ++ [UIEvent.ask itemPrompt (answers idx)], some "")) ∧
      (∀ k : Int, goAtoi (answers idx) = some k → 1 ≤ k → k ≤ (names.length : Int) →
        promptForName names listPrompt itemPrompt answers (fuel + 1) idx =
          (menuEvents names listPrompt ++ [UIEvent.ask itemPrompt (answers idx)],
            some (names.getD (k - 1).toNat ""))) ∧
      (answers idx ≠ "" → goAtoi (answers idx) = none →
        promptForName names listPrompt itemPrompt answers (fuel + 1) idx =
          (menuEvents names listPrompt ++ [UIEvent.ask itemPrompt (answers idx)],
            some (answers idx))) ∧
      (∀ k : Int, goAtoi (answers idx) = some k → (k < 1 ∨ (names.length : Int) < k) →
        promptForName names listPrompt itemPrompt answers (fuel + 1) idx =
          ((menuEvents names listPrompt ++ [UIEvent.ask itemPrompt (answers idx)]) ++
              (promptForName names listPrompt itemPrompt answers fuel (idx + 1)).1,
            (promptForName names listPrompt itemPrompt answers fuel (idx + 1)).2)) := by
  intro names listPrompt itemPrompt answers fuel idx
  refine ⟨?_, ?_, ?_, ?_⟩
  · intro h
    simp [promptForName, h]
  · intro k hk h1 h2
    have hne : answers idx ≠ "" := by
      intro h
      rw [h, show goAtoi "" = none from rfl] at hk
      cases hk
    simp only [promptForName, if_neg hne, hk]
    rw [if_pos ⟨h1, h2⟩]
  · intro hne hA
    simp [promptForName, hne, hA]
  · intro k hk hout
    have hcond : ¬ (1 ≤ k ∧ k ≤ (names.length : Int)) := by
      rcases hout with hout | hout
      · exact fun hc => absurd hc.1 (by omega)
      · exact fun hc => absurd hc.2 (by omega)
    have hne : answers idx ≠ "" := by
      intro h
      rw [h, show goAtoi "" = none from rfl] at hk
      cases hk
    simp only [promptForName, if_neg hne, hk]
    rw [if_neg hcond]

/-- C8 witness: the four loop behaviours evaluated on the listing
["alpha", "beta"]: empty answer skips, "2" selects "beta", "xyz" is
returned verbatim (it names no listed entry), and "7" (out of range)
re-prompts, after which "xyz" ends the loop. -/
theorem promptForName_cases_witness :
    (promptForName ["alpha", "beta"] "L" "Org" (fun _ => "") (0 + 1) 0 =
      (menuEvents ["alpha", "beta"] "L" ++ [UIEvent.ask "Org" ""], some "")) ∧
    (promptForName ["alpha", "beta"] "L" "Org" (fun _ => "2") (0 + 1) 0 =
      (menuEvents ["alpha", "beta"] "L" ++ [UIEvent.ask "Org" "2"], some "beta")) ∧
    (promptForName ["alpha", "beta"] "L" "Org" (fun _ => "xyz") (0 + 1) 0 =
      (menuEvents ["alpha", "beta"] "L" ++ [UIEvent.ask "Org" "xyz"], some "xyz")) ∧
    (promptForName ["alpha", "beta"] "L" "Org" (fun i => if i = 0 then "7" else "xyz") (1 + 1) 0 =
      ((menuEvents ["alpha", "beta"] "L" ++ [UIEvent.ask "Org" "7"]) ++
          (promptForName ["alpha", "beta"] "L" "Org" (fun i => if i = 0 then "7" else "xyz") 1 1).1,
        (promptForName ["alpha", "beta"] "L" "Org" (fun i => if i = 0 then "7" else "xyz") 1 1).2)) :=
  ⟨(promptForName_cases ["alpha", "beta"] "L" "Org" (fun _ => "") 0 0).1 rfl,
   (promptForName_cases ["alpha", "beta"] "L" "Org" (fun _ => "2") 0 0).2.1 2
     (by decide) (by decide) (by decide),
   (promptForName_cases ["alpha", "beta"] "L" "Org" (fun _ => "xyz") 0 0).2.2.1
     (by decide) (by decide),
   (promptForName_cases ["alpha", "beta"] "L" "Org" (fun i => if i = 0 then "7" else "xyz") 1 0).2.2.2 7
     (by decide) (Or.inr (by decide))⟩

/-- C10 witness: the amended characterization evaluated at concrete inputs:
a matching session on one side, an empty history with a failing and a
succeeding ShowConfiguration on the other. -/
theorem endpointExecute_characterization_witness :
    ((∃ i ∈ [entryKeyedByApiEndpoint],
        stringsContains i.authorizationEndpoint "api" = true) →
      ∀ showErr : Option String,
        (endpointExecute "api" [entryKeyedByApiEndpoint] showErr false).2 = Except.ok () ∧
        UIEvent.showConfiguration ∉ (endpointExecute "api" [entryKeyedByApiEndpoint] showErr false).1) ∧
    ((∀ i ∈ ([] : List CFInstanceData),
        stringsContains i.authorizationEndpoint "api" = false) →
      (endpointExecute "api" [] none false).2 = Except.error "" ∧
      (endpointExecute "api" [] (some "boom") false).2 = Except.error "boom") :=
  ⟨(endpointExecute_characterization "api" [entryKeyedByApiEndpoint] false "boom").1,
    fun _ => (endpointExecute_characterization "api" [] false "boom").2 (by simp)⟩

end CF

